import Mathlib

/-!
Verification of the template-driven register mapping and encoding engine of
the modbus_sim repository (modbus_sim/modbus_sim.py), against its
natural-language specification.

The Python source is shallowly embedded: Python strings become lists of
characters, Python dynamic values become the PyVal type, the mutable Slave
object becomes explicit state passing, and exceptions become Option/Except
results.  Functions that live in external libraries (the pymodbus payload
codec and data blocks) are modelled from the specification's description of
the codec and store components; every such definition carries a doc comment
saying so.
-/

namespace ModbusSim

/-- Character list of a string literal; Python str values are modelled as
lists of characters. -/
def chars (s : String) : List Char := s.data

/-- Python str.strip(): drop leading and trailing whitespace. -/
def pystrip (s : List Char) : List Char :=
  ((s.dropWhile Char.isWhitespace).reverse.dropWhile Char.isWhitespace).reverse

/-- Python str.lower() for the ASCII keys used by the template grammar. -/
def pylower (s : List Char) : List Char := s.map Char.toLower

/-- Accumulator loop for pysplit. -/
def pysplitAux (sep : Char) : List Char → List Char → List (List Char)
  | [], acc => [acc.reverse]
  | c :: cs, acc =>
    if c = sep then acc.reverse :: pysplitAux sep cs []
    else pysplitAux sep cs (c :: acc)

/-- Python str.split(sep) for a one-character separator: no collapsing of
empty fields, and the empty string splits to one empty field. -/
def pysplit (sep : Char) (s : List Char) : List (List Char) := pysplitAux sep s []

/-- Fuel-indexed loop for pyreplace; the fuel is the length of the scanned
string, which bounds the number of recursion steps. -/
def pyreplaceAux (old : List Char) : Nat → List Char → List Char
  | _, [] => []
  | 0, s => s
  | fuel + 1, c :: cs =>
    if old.isPrefixOf (c :: cs) then
      pyreplaceAux old fuel (List.drop (old.length - 1) cs)
    else
      c :: pyreplaceAux old fuel cs

/-- Python str.replace(old, "") for a nonempty pattern: removes every
left-to-right non-overlapping occurrence of old. -/
def pyreplace (old : List Char) (s : List Char) : List Char :=
  pyreplaceAux old s.length s

/-- Python substring containment (the binary in operator on str). -/
def containsSeq (pat : List Char) : List Char → Bool
  | [] => pat.isEmpty
  | c :: cs => pat.isPrefixOf (c :: cs) || containsSeq pat cs

/-- Decimal digit accumulation for pyint. -/
def digitsToNatAux : List Char → Nat → Option Nat
  | [], acc => some acc
  | c :: cs, acc =>
    if c.isDigit then digitsToNatAux cs (acc * 10 + (c.toNat - 48)) else Option.none

/-- Python int(str): whitespace stripped, an optional sign followed by decimal
digits; Option.none models the ValueError raised on any other shape. -/
def pyint (s : List Char) : Option Int :=
  match pystrip s with
  | [] => Option.none
  | '-' :: ds =>
    if ds = [] then Option.none else (digitsToNatAux ds 0).map (fun n => -(n : Int))
  | '+' :: ds =>
    if ds = [] then Option.none else (digitsToNatAux ds 0).map (fun n => (n : Int))
  | ds => (digitsToNatAux ds 0).map (fun n => (n : Int))

/-- Dynamic Python values as they occur in the register fields: None, int,
float, bool and str.  A float is kept as an exact numerator/denominator pair:
every float literal appearing in a template is a short decimal fraction,
exactly representable in an IEEE double, and the simulator only adds integers
to it, so exact rational bookkeeping is faithful for every operation the
embedded code performs. -/
inductive PyVal where
  | none : PyVal
  | int : Int → PyVal
  | float : Int → Nat → PyVal
  | bool : Bool → PyVal
  | str : List Char → PyVal
deriving DecidableEq, Repr

/-- Digit-string to unscaled decimal pair for pyfloat: m.f becomes
(m * 10^k + f, 10^k). -/
def decimalAux (ds : List Char) : Option (Nat × Nat) :=
  match pysplit '.' ds with
  | [ip] =>
    if ip ≠ [] ∧ ip.all Char.isDigit then
      (digitsToNatAux ip 0).map (fun n => (n, 1))
    else Option.none
  | [ip, fp] =>
    if (ip ≠ [] ∨ fp ≠ []) ∧ ip.all Char.isDigit ∧ fp.all Char.isDigit then
      match digitsToNatAux ip 0, digitsToNatAux fp 0 with
      | some n, some f => some (n * 10 ^ fp.length + f, 10 ^ fp.length)
      | _, _ => Option.none
    else Option.none
  | _ => Option.none

/-- Python float(str) for plain decimal notation (exponent notation never
occurs in templates); Option.none models ValueError. -/
def pyfloatOfChars (s : List Char) : Option (Int × Nat) :=
  match pystrip s with
  | '-' :: ds => (decimalAux ds).map (fun p => (-(p.1 : Int), p.2))
  | '+' :: ds => (decimalAux ds).map (fun p => ((p.1 : Int), p.2))
  | ds => (decimalAux ds).map (fun p => ((p.1 : Int), p.2))

/-- Python int(x) on a dynamic value; truncation toward zero for floats;
Option.none models TypeError/ValueError. -/
def pyToInt : PyVal → Option Int
  | PyVal.int i => some i
  | PyVal.float n d => if d = 0 then Option.none else some (Int.tdiv n (d : Int))
  | PyVal.bool b => some (if b then 1 else 0)
  | PyVal.str s => pyint s
  | PyVal.none => Option.none

/-- Python float(x) on a dynamic value; Option.none models TypeError/ValueError. -/
def pyToFloat : PyVal → Option (Int × Nat)
  | PyVal.int i => some (i, 1)
  | PyVal.float n d => some (n, d)
  | PyVal.bool b => some ((if b then 1 else 0), 1)
  | PyVal.str s => pyfloatOfChars s
  | PyVal.none => Option.none

/-- Python bool(x) truthiness. -/
def pyTruthy : PyVal → Bool
  | PyVal.int i => i ≠ 0
  | PyVal.float n _ => n ≠ 0
  | PyVal.bool b => b
  | PyVal.str s => s ≠ []
  | PyVal.none => false

/-- Python x + 1 as performed by the generic updater; Option.none models the
TypeError on None/str operands. -/
def pyAdd1 : PyVal → Option PyVal
  | PyVal.int i => some (PyVal.int (i + 1))
  | PyVal.float n d => some (PyVal.float (n + (d : Int)) d)
  | PyVal.bool b => some (PyVal.int ((if b then 1 else 0) + 1))
  | _ => Option.none

/-- Python x < y for the operand shapes the updater can meet.  In Python 2,
None compares below every number.  Pairs that never occur are Option.none. -/
def pyLt : PyVal → PyVal → Option Bool
  | PyVal.int a, PyVal.int b => some (a < b)
  | PyVal.int a, PyVal.float n d => some (a * (d : Int) < n)
  | PyVal.float n d, PyVal.int b => some (n < b * (d : Int))
  | PyVal.float n d, PyVal.float m e => some (n * (e : Int) < m * (d : Int))
  | PyVal.bool a, PyVal.int b => some ((if a then (1 : Int) else 0) < b)
  | PyVal.int a, PyVal.bool b => some (a < (if b then (1 : Int) else 0))
  | PyVal.none, PyVal.int _ => some true
  | PyVal.none, PyVal.float _ _ => some true
  | PyVal.int _, PyVal.none => some false
  | PyVal.float _ _, PyVal.none => some false
  | _, _ => Option.none

/-- Python x == y for the operand shapes the updater can meet (numeric
cross-type equality, bool as 0/1, everything else by shape). -/
def pyEqBool : PyVal → PyVal → Bool
  | PyVal.int a, PyVal.int b => a = b
  | PyVal.int a, PyVal.float n d => a * (d : Int) = n
  | PyVal.float n d, PyVal.int b => n = b * (d : Int)
  | PyVal.float n d, PyVal.float m e => n * (e : Int) = m * (d : Int)
  | PyVal.bool a, PyVal.int b => (if a then (1 : Int) else 0) = b
  | PyVal.int a, PyVal.bool b => a = (if b then (1 : Int) else 0)
  | PyVal.bool a, PyVal.bool b => a = b
  | PyVal.str a, PyVal.str b => a = b
  | PyVal.none, PyVal.none => true
  | _, _ => false

/-- Endianness tags, matching pymodbus Endian.Big / Endian.Little. -/
inductive Endian where
  | big : Endian
  | little : Endian
deriving DecidableEq, Repr

/-- Modbus function-code constants (modbus_sim.py lines 110-117). -/
def READ_CO : Nat := 0x01

/-- Read discrete-input function code. -/
def READ_DI : Nat := 0x02

/-- Read holding-register function code. -/
def READ_HR : Nat := 0x03

/-- Read input-register function code. -/
def READ_IR : Nat := 0x04

/-- Write-single-coil function code. -/
def WRITE_SINGLE_CO : Nat := 0x05

/-- Write-single-holding-register function code. -/
def WRITE_SINGLE_HR : Nat := 0x06

/-- Slave.Register (modbus_sim.py lines 607-644).  The structure defaults are
the constructor defaults; both parser construction sites pass no encoding, min
or max, so the constructor's get_range defaulting yields None for min and max,
which the PyVal.none defaults capture. -/
structure Register where
  paramId : Option Int := Option.none
  address : Option Int := Option.none
  length : Int := 1
  name : Option (List Char) := Option.none
  reg_type : Option (List Char) := Option.none
  encoding : Option (List Char) := Option.none
  default : PyVal := PyVal.int 0
  min : PyVal := PyVal.none
  max : PyVal := PyVal.none
  byteorder : Endian := Endian.big
  wordorder : Endian := Endian.big
  value : PyVal := PyVal.none
deriving DecidableEq, Repr

/-- Register.get_range (lines 646-662): nominal (min, max) derived from the
encoding tag.  The source tests the substring 'uint' against encoding[0:4] and
'int' against encoding[0:3], which on those bounded slices is exactly a prefix
test.  Option.none models an uncaught int() ValueError on a malformed tag
suffix (and the unmodelled Python float arising from a negative bit count);
both are unreachable for the recognized tags. -/
def get_range (encoding : Option (List Char)) : Option (PyVal × PyVal) :=
  match encoding with
  | Option.none => some (PyVal.none, PyVal.none)
  | some enc =>
    if enc.take 4 = chars "uint" then
      match pyint (enc.drop 4) with
      | some bits =>
        if 0 ≤ bits then
          some (PyVal.int 0, PyVal.int ((2 ^ bits.toNat : Nat) - 1))
        else Option.none
      | Option.none => Option.none
    else if enc.take 3 = chars "int" then
      match pyint (enc.drop 3) with
      | some bits =>
        if 0 ≤ bits then
          some (PyVal.int (-(((2 ^ bits.toNat : Nat) / 2 : Nat) : Int)),
                PyVal.int ((((2 ^ bits.toNat : Nat) / 2 : Nat) : Int) - 1))
        else Option.none
      | Option.none => Option.none
    else if enc = chars "boolean" then
      some (PyVal.int 0, PyVal.int 1)
    else
      some (PyVal.none, PyVal.none)

/-- Python str(x) as used by Register.get_default for ascii defaults; only the
str-to-str case is reachable from the template grammar, rendering of other
values is not modelled. -/
def pyToStr : PyVal → Option (List Char)
  | PyVal.str s => some s
  | _ => Option.none

/-- Register.get_default (lines 664-676): coerce the stored default to the
encoding's Python type.  The first branch tests the substring 'int' against
encoding[0:4], so it also captures every uint tag.  Option.none models an
uncaught conversion error. -/
def get_default (reg : Register) : Option PyVal :=
  match reg.encoding with
  | Option.none => some reg.default
  | some enc =>
    if containsSeq (chars "int") (enc.take 4) then
      if reg.default = PyVal.none then some (PyVal.int 0)
      else (pyToInt reg.default).map PyVal.int
    else if containsSeq (chars "float") (enc.take 5) then
      if reg.default = PyVal.none then some (PyVal.float 0 1)
      else (pyToFloat reg.default).map (fun p => PyVal.float p.1 p.2)
    else if containsSeq (chars "bool") (enc.take 4) then
      some (PyVal.bool (pyTruthy reg.default))
    else if containsSeq (chars "ascii") (enc.take 5) then
      if reg.default = PyVal.none then some (PyVal.str [])
      else (pyToStr reg.default).map PyVal.str
    else some reg.default

/-- Register.get_function_code (lines 678-694).  Option.none models both the
EnvironmentError raised on writing to an ir/di register and the implicit None
returned for an unset register type. -/
def get_function_code (reg : Register) (read : Bool) : Option Nat :=
  if reg.reg_type = some (chars "hr") ∨ reg.reg_type = some (chars "co") then
    if read then
      some (if reg.reg_type = some (chars "hr") then READ_HR else READ_CO)
    else
      some (if reg.reg_type = some (chars "hr") then WRITE_SINGLE_HR else WRITE_SINGLE_CO)
  else if reg.reg_type = some (chars "ir") ∨ reg.reg_type = some (chars "di") then
    if read then
      some (if reg.reg_type = some (chars "ir") then READ_IR else READ_DI)
    else Option.none
  else Option.none

/-- The four Modbus register classes backing a slave context. -/
inductive RegClass where
  | hr : RegClass
  | ir : RegClass
  | di : RegClass
  | co : RegClass
deriving DecidableEq, Repr

/-- Modelled from the spec: the pymodbus ModbusSlaveContext maps a function
code to one of the four register-class stores; the spec's interface table (§6)
gives read 0x01 coil, 0x02 discrete, 0x03 holding, 0x04 input and single
writes 0x05 coil, 0x06 holding (multi writes 0x0f/0x10 go to the same
stores). -/
def fcClass (fc : Nat) : Option RegClass :=
  if fc = READ_CO ∨ fc = WRITE_SINGLE_CO ∨ fc = 0x0f then some RegClass.co
  else if fc = READ_DI then some RegClass.di
  else if fc = READ_HR ∨ fc = WRITE_SINGLE_HR ∨ fc = 0x10 then some RegClass.hr
  else if fc = READ_IR then some RegClass.ir
  else Option.none

/-- Modelled from the spec: the backing stores handed to the protocol server
(§3 RegisterStore), abstracted as one total address-to-word map per register
class; reading an address yields the last word written there, addresses start
at the allocator's base.  Store-topology validation is treated separately by
the allocator definitions below. -/
structure Ctx where
  hr : Int → Nat
  ir : Int → Nat
  di : Int → Nat
  co : Int → Nat

/-- Word map of one register class. -/
def Ctx.read (ctx : Ctx) : RegClass → Int → Nat
  | RegClass.hr => ctx.hr
  | RegClass.ir => ctx.ir
  | RegClass.di => ctx.di
  | RegClass.co => ctx.co

/-- Point update of a word map. -/
def writeWord (f : Int → Nat) (a : Int) (w : Nat) : Int → Nat :=
  fun x => if x = a then w else f x

/-- Write a word list at consecutive addresses. -/
def writeWordsF (f : Int → Nat) (addr : Int) : List Nat → (Int → Nat)
  | [] => f
  | w :: ws => writeWordsF (writeWord f addr w) (addr + 1) ws

/-- Read count words at consecutive addresses. -/
def readWords (f : Int → Nat) (addr : Int) : Nat → List Nat
  | 0 => []
  | n + 1 => f addr :: readWords f (addr + 1) n

/-- Write a word list into one class store of the context. -/
def Ctx.writeWords (ctx : Ctx) (cls : RegClass) (addr : Int) (ws : List Nat) : Ctx :=
  match cls with
  | RegClass.hr => { ctx with hr := writeWordsF ctx.hr addr ws }
  | RegClass.ir => { ctx with ir := writeWordsF ctx.ir addr ws }
  | RegClass.di => { ctx with di := writeWordsF ctx.di addr ws }
  | RegClass.co => { ctx with co := writeWordsF ctx.co addr ws }

/-- Modelled from the spec: ModbusSlaveContext.getValues(fc, address, count)
(§6 consumed interface). -/
def Ctx.getValues (ctx : Ctx) (fc : Nat) (addr : Int) (count : Nat) : Option (List Nat) :=
  (fcClass fc).map (fun cls => readWords (ctx.read cls) addr count)

/-- Modelled from the spec: ModbusSlaveContext.setValues(fc, address, words)
(§6 consumed interface). -/
def Ctx.setValues (ctx : Ctx) (fc : Nat) (addr : Int) (ws : List Nat) : Option Ctx :=
  (fcClass fc).map (fun cls => ctx.writeWords cls addr ws)

/-- Swap the two bytes of a 16-bit word. -/
def swapBytes (w : Nat) : Nat := w % 256 * 256 + w / 256

/-- Reorder the bytes within each word for the given byte order. -/
def applyByteorder (bo : Endian) (ws : List Nat) : List Nat :=
  match bo with
  | Endian.big => ws
  | Endian.little => ws.map swapBytes

/-- Reorder the words of a multi-word value for the given word order. -/
def applyWordorder (wo : Endian) (ws : List Nat) : List Nat :=
  match wo with
  | Endian.big => ws
  | Endian.little => ws.reverse

/-- Big-endian 16-bit word decomposition of an unsigned value, most
significant word first. -/
def natToWords : Nat → Nat → List Nat
  | 0, _ => []
  | n + 1, u => natToWords n (u / 65536) ++ [u % 65536]

/-- Recombine big-endian 16-bit words into an unsigned value. -/
def wordsToNat (ws : List Nat) : Nat := ws.foldl (fun a w => a * 65536 + w) 0

/-- Number of 16-bit register words occupied by a packed integer of the given
bit width (one word for the 8-bit and boolean formats). -/
def wordCountOfBits (bits : Nat) : Nat := max 1 (bits / 16)

/-- Smallest value representable by a packed integer format of the given
width and signedness (§3: each encoding's natural numeric range). -/
def encLo (bits : Nat) : Bool → Int
  | true => -((2 : Int) ^ (bits - 1))
  | false => 0

/-- Largest value representable by a packed integer format of the given
width and signedness. -/
def encHi (bits : Nat) : Bool → Int
  | true => (2 : Int) ^ (bits - 1) - 1
  | false => (2 : Int) ^ bits - 1

/-- Modelled from the spec: the encode direction of the register codec (§4.3)
as realized by the external pymodbus BinaryPayloadBuilder add_*bit_int/uint
calls followed by to_registers.  The two's-complement image of the value is
packed big-endian into 16-bit words, the word order is applied to the word
list, then the byte order within each word.  Option.none models the
struct.error range failure: a value outside the format's representable range
raises before anything is written (§4.3, §7 EncodeRangeError). -/
def encode_int (bits : Nat) (signed : Bool) (bo wo : Endian) (v : Int) : Option (List Nat) :=
  if encLo bits signed ≤ v ∧ v ≤ encHi bits signed then
    some (applyWordorder wo (applyByteorder bo
      (natToWords (wordCountOfBits bits) ((v % (2 : Int) ^ bits).toNat))))
  else Option.none

/-- Modelled from the spec: the decode direction of the register codec (§4.3)
as realized by BinaryPayloadDecoder decode_*bit_int/uint: take the value's
words from the payload, undo the word order, undo the byte order, recombine
big-endian, and reinterpret two's-complement when signed.  Option.none models
the struct.error on a payload shorter than the format. -/
def decode_int (bits : Nat) (signed : Bool) (bo wo : Endian) (ws : List Nat) : Option Int :=
  let n := wordCountOfBits bits
  if n ≤ ws.length then
    let u := wordsToNat (applyByteorder bo (applyWordorder wo (ws.take n)))
    some (if signed = true ∧ (2 : Int) ^ (bits - 1) ≤ (u : Int)
          then (u : Int) - (2 : Int) ^ bits else (u : Int))
  else Option.none

/-- Errors escaping Register.set_value / get_value: a struct.error range
failure, a struct/pymodbus type failure (non-integer payload value, missing
address or function code), or a payload kind (float, bit list, ascii string)
whose binary packing is outside this embedding. -/
inductive CodecErr where
  | rangeErr : CodecErr
  | typeErr : CodecErr
  | unmodelled : CodecErr
deriving DecidableEq, Repr

/-- Integer argument acceptable to a struct integer format: a Python int or
bool. -/
def asPyInt : PyVal → Option Int
  | PyVal.int i => some i
  | PyVal.bool b => some (if b then 1 else 0)
  | _ => Option.none

/-- Float argument acceptable to a struct float format: a Python float, int
or bool (a str raises a type error in the packer). -/
def asPyFloat : PyVal → Option (Int × Nat)
  | PyVal.float n d => some (n, d)
  | PyVal.int i => some (i, 1)
  | PyVal.bool b => some ((if b then 1 else 0), 1)
  | _ => Option.none

/-- Modelled from the external packer (CPython struct float packing, which
pymodbus add_32bit_float/add_64bit_float call): packing a finite value raises
OverflowError exactly when round-to-nearest-even overflows the format, i.e.
when the magnitude reaches 2^128 - 2^103 for float32 (one rounding step above
the largest finite float32, 2^128 - 2^104; finite values below the bound
round into range and pack without error) and 2^1024 - 2^970 for float64
(unreachable: every finite Python float is itself a float64, so the float64
overflow never fires at runtime). -/
def floatOverflowBound : Bool → Int
  | true => 2 ^ 128 - 2 ^ 103
  | false => 2 ^ 1024 - 2 ^ 970

/-- The float encoding tags with their single-precision flag. -/
def floatTagTable : List (List Char × Bool) :=
  [(chars "float32", true), (chars "float64", false)]

/-- Kinds of payload encodings dispatched by Register.set_value and
Register.get_value; the integer family carries (bit width, signedness) and
the float family whether it is the single-precision format. -/
inductive EncKind where
  | intK : Nat → Bool → EncKind
  | floatK : Bool → EncKind
  | bitsK : EncKind
  | strK : EncKind
  | unknownK : EncKind
deriving DecidableEq, Repr

/-- Encoding-tag dispatch shared by Register.set_value (lines 735-751) and
Register.get_value (lines 703-720): both methods branch on the same tag lists
in the same order — 8-bit formats for int8/uint8/boolean, then 16-bit, 32-bit,
float, 64-bit, bit-list and string tags, with any other tag falling through to
the logged unhandled-encoding branch. -/
def encKind : Option (List Char) → EncKind
  | Option.none => EncKind.unknownK
  | some enc =>
    if enc = chars "int8" ∨ enc = chars "uint8" ∨ enc = chars "boolean" then
      EncKind.intK 8 (enc = chars "int8")
    else if enc = chars "int16" ∨ enc = chars "uint16" then
      EncKind.intK 16 (enc = chars "int16")
    else if enc = chars "int32" ∨ enc = chars "uint32" then
      EncKind.intK 32 (enc = chars "int32")
    else if enc = chars "float32" ∨ enc = chars "float64" then
      EncKind.floatK (enc = chars "float32")
    else if enc = chars "int64" ∨ enc = chars "uint64" then
      EncKind.intK 64 (enc = chars "int64")
    else if enc = chars "bits" then
      EncKind.bitsK
    else if enc = chars "string" ∨ enc = chars "ascii" then
      EncKind.strK
    else EncKind.unknownK

/-- Payload words built by the builder calls of Register.set_value
(lines 734-752): integer formats pack through the codec (raising on a range
or type failure); float formats first pass the packer's overflow check —
raising the range error on a value whose magnitude reaches the format's
overflow bound, before anything is written — while the bit-level float image
itself is outside the embedding; bit/string payloads are outside the
embedding; an unrecognized tag leaves the logged-error empty payload. -/
def build_payload (reg : Register) (value : PyVal) : Except CodecErr (List Nat) :=
  match encKind reg.encoding with
  | EncKind.intK bits signed =>
    match asPyInt value with
    | some i =>
      match encode_int bits signed reg.byteorder reg.wordorder i with
      | some ws => Except.ok ws
      | Option.none => Except.error CodecErr.rangeErr
    | Option.none => Except.error CodecErr.typeErr
  | EncKind.floatK single =>
    match asPyFloat value with
    | some p =>
      if floatOverflowBound single * (p.2 : Int) ≤ p.1 ∨
          p.1 ≤ -(floatOverflowBound single * (p.2 : Int)) then
        Except.error CodecErr.rangeErr
      else Except.error CodecErr.unmodelled
    | Option.none => Except.error CodecErr.typeErr
  | EncKind.bitsK => Except.error CodecErr.unmodelled
  | EncKind.strK => Except.error CodecErr.unmodelled
  | EncKind.unknownK => Except.ok []

/-- Register.set_value (lines 727-761): a None value only logs a warning and
changes nothing; otherwise the payload is built (raising on a range failure
before any store access), written through the slave context at the register's
address, and the cached value updated. -/
def set_value (ctx : Ctx) (reg : Register) (value : PyVal) : Except CodecErr (Ctx × Register) :=
  if value = PyVal.none then
    Except.ok (ctx, reg)
  else
    match build_payload reg value with
    | Except.error e => Except.error e
    | Except.ok payload =>
      match get_function_code reg true, reg.address with
      | some fc, some addr =>
        match ctx.setValues fc addr payload with
        | some ctx2 => Except.ok (ctx2, { reg with value := value })
        | Option.none => Except.error CodecErr.typeErr
      | _, _ => Except.error CodecErr.typeErr

/-- Register.get_value (lines 696-725): read length words at the register's
address and decode them per the encoding tag, caching the decoded value.  An
unknown tag logs an error and yields Python None (lines 718-720); float,
bit-list and string decodes are outside the embedding and map to Option.none,
as do a missing address/function code and decoder struct errors. -/
def get_value (ctx : Ctx) (reg : Register) : Option (PyVal × Register) :=
  match get_function_code reg true, reg.address with
  | some fc, some addr =>
    match ctx.getValues fc addr reg.length.toNat with
    | Option.none => Option.none
    | some values =>
      match encKind reg.encoding with
      | EncKind.intK bits signed =>
        (decode_int bits signed reg.byteorder reg.wordorder values).map
          (fun i => (PyVal.int i, { reg with value := PyVal.int i }))
      | EncKind.floatK _ => Option.none
      | EncKind.bitsK => Option.none
      | EncKind.strK => Option.none
      | EncKind.unknownK => some (PyVal.none, { reg with value := PyVal.none })
  | _, _ => Option.none

/-- Option-propagating left fold: the Python loops abort the whole template
parse when a conversion raises. -/
def foldOption {α β : Type} (f : α → β → Option α) : α → List β → Option α
  | a, [] => some a
  | a, b :: bs =>
    match f a b with
    | some a2 => foldOption f a2 bs
    | Option.none => Option.none

/-- Option-propagating map over the register list (an in-place mutation loop
in the source; a raise aborts the parse). -/
def traverseOption (f : Register → Option Register) : List Register → Option (List Register)
  | [] => some []
  | r :: rs =>
    match f r, traverseOption f rs with
    | some r2, some rs2 => some (r2 :: rs2)
    | _, _ => Option.none

/-- Mutable Slave parsing state (Slave.__init__ defaults, lines 316-324);
device-identity strings and port configuration are excluded collaborators
(spec §1) and carry no modelled state. -/
structure SlaveState where
  sparse : Bool := false
  byteorder : Endian := Endian.big
  wordorder : Endian := Endian.big
  zero_mode : Bool := true
  slave_id : Option Int := Option.none
  registers : List Register := []
deriving DecidableEq, Repr

/-- One token of a device-description line (lines 341-355): the identity
prefixes assign excluded metadata, and a token whose first six characters
lowercase to sparse turns the global sparse flag on. -/
def descToken (st : SlaveState) (i : List Char) : SlaveState :=
  if i.take 10 = chars "VendorName" then st
  else if i.take 11 = chars "ProductCode" then st
  else if i.take 9 = chars "VendorUrl" then st
  else if i.take 11 = chars "ProductName" then st
  else if i.take 9 = chars "ModelName" then st
  else if i.take 18 = chars "MajorMinorRevision" then st
  else if pylower (i.take 6) = chars "sparse" then { st with sparse := true }
  else st

/-- One token of a network line (lines 362-375): networkId in 1..253 sets the
slave id, plcBaseAddress=1 clears zero mode, byteOrder/wordOrder choose the
endianness. -/
def netToken (st : SlaveState) (i : List Char) : Option SlaveState :=
  if i.take 9 = chars "networkId" then
    match pyint (i.drop 10) with
    | some net_id =>
      if 1 ≤ net_id ∧ net_id < 254 then some { st with slave_id := some net_id }
      else some st
    | Option.none => Option.none
  else if i.take 14 = chars "plcBaseAddress" then
    match pyint (i.drop 15) with
    | some plc => some { st with zero_mode := ¬(plc = 1) }
    | Option.none => Option.none
  else if i.take 9 = chars "byteOrder" then
    some { st with byteorder := if pystrip (i.drop 10) = chars "msb" then Endian.big else Endian.little }
  else if i.take 9 = chars "wordOrder" then
    some { st with wordorder := if pystrip (i.drop 10) = chars "msw" then Endian.big else Endian.little }
  else some st

/-- One token of a register-description line (lines 447-463); note that the
address, name, min, max and default keys are matched case-insensitively and
an out-of-range address is only logged. -/
def regDescToken (r : Register) (i : List Char) : Option Register :=
  if i.take 7 = chars "paramId" then
    (pyint (i.drop 8)).map (fun p => { r with paramId := some p })
  else if pylower (i.take 7) = chars "address" then
    match pyint (i.drop 8) with
    | some addr =>
      some (if 0 ≤ addr ∧ addr < 99999 then { r with address := some addr } else r)
    | Option.none => Option.none
  else if pylower (i.take 4) = chars "name" then
    some { r with name := some (pystrip (i.drop 5)) }
  else if pylower (i.take 3) = chars "min" then
    some { r with min := PyVal.str (pystrip (i.drop 4)) }
  else if pylower (i.take 3) = chars "max" then
    some { r with max := PyVal.str (pystrip (i.drop 4)) }
  else if pylower (i.take 7) = chars "default" then
    some { r with default := PyVal.str (pystrip (i.drop 8)) }
  else some r

/-- A register-description line (lines 444-464): a fresh Register is filled
from the tokens and appended to the register list. -/
def regDescLine (st : SlaveState) (tokens : List (List Char)) : Option SlaveState :=
  (foldOption regDescToken {} tokens).map
    (fun r => { st with registers := st.registers ++ [r] })

/-- Loop state of a register-mapping line (lines 469-470): the register list,
whether a register for this line is known to exist, and the paramId the line
is about. -/
structure RegLineState where
  registers : List Register
  reg_exists : Bool
  this_reg : Option Int
deriving DecidableEq, Repr

/-- Address-field branch of a register-mapping line (lines 482-493): the
parsed address is applied to every register matching this line's paramId
exactly when the Python test addr in range(0, 99999) holds, so 0 <= addr <=
99998; otherwise only an error is logged and nothing changes.  When no
register exists yet a fresh one holding only the address is appended. -/
def applyAddressField (s : RegLineState) (addr : Int) : RegLineState :=
  if 0 ≤ addr ∧ addr < 99999 then
    let regs2 := s.registers.map
      (fun r => if r.paramId = s.this_reg then { r with address := some addr } else r)
    if s.reg_exists then { s with registers := regs2 }
    else { registers := regs2 ++ [{ address := some addr }], reg_exists := true,
           this_reg := s.this_reg }
  else s

/-- registerType branch of a register-mapping line (lines 494-513): analog,
holding, input and coil map to the internal class tags ir, hr, di, co; an
unknown type is only logged. -/
def applyRegisterType (s : RegLineState) (rt : List Char) : RegLineState :=
  let assign (t : String) : RegLineState :=
    { s with registers :=
        (s.registers.map
          (fun r => if r.paramId = s.this_reg then { r with reg_type := some (chars t) } else r)) }
  if rt = chars "analog" then assign "ir"
  else if rt = chars "holding" then assign "hr"
  else if rt = chars "input" then assign "di"
  else if rt = chars "coil" then assign "co"
  else s

/-- Conversion applied to a matching register for the one-word encodings
int16/int8/boolean (lines 517-522): tag the encoding and coerce default, min
and max to int (None is kept). -/
def convRegNarrow (enc : List Char) (r : Register) : Option Register := do
  let d ← pyToInt r.default
  let mn ← if r.min = PyVal.none then some PyVal.none else (pyToInt r.min).map PyVal.int
  let mx ← if r.max = PyVal.none then some PyVal.none else (pyToInt r.max).map PyVal.int
  some { r with encoding := some enc, default := PyVal.int d, min := mn, max := mx }

/-- Conversion applied to a matching register for the two-word encodings
float32/int32 (lines 523-532): tag the encoding, set length 2 and coerce
default, min and max to float or int. -/
def convRegWide (enc : List Char) (r : Register) : Option Register := do
  let d ←
    if enc = chars "float32" then (pyToFloat r.default).map (fun p => PyVal.float p.1 p.2)
    else (pyToInt r.default).map PyVal.int
  let mn ←
    if r.min = PyVal.none then some PyVal.none
    else if enc = chars "float32" then (pyToFloat r.min).map (fun p => PyVal.float p.1 p.2)
    else (pyToInt r.min).map PyVal.int
  let mx ←
    if r.max = PyVal.none then some PyVal.none
    else if enc = chars "float32" then (pyToFloat r.max).map (fun p => PyVal.float p.1 p.2)
    else (pyToInt r.max).map PyVal.int
  some { r with encoding := some enc, length := 2, default := d, min := mn, max := mx }

/-- Encoding branch of a register-mapping line (lines 514-534): a recognized
tag converts every matching register; an unrecognized tag is only logged and
leaves the state unchanged, the descriptor stays in the register list. -/
def applyEncodingField (s : RegLineState) (enc : List Char) : Option RegLineState :=
  if enc = chars "int16" ∨ enc = chars "int8" ∨ enc = chars "boolean" then
    (traverseOption
      (fun r => if r.paramId = s.this_reg then convRegNarrow enc r else some r)
      s.registers).map (fun regs => { s with registers := regs })
  else if enc = chars "float32" ∨ enc = chars "int32" then
    (traverseOption
      (fun r => if r.paramId = s.this_reg then convRegWide enc r else some r)
      s.registers).map (fun regs => { s with registers := regs })
  else some s

/-- One token of a register-mapping line (lines 471-534).  The paramId token
looks the id up in the register list, creating and appending a fresh register
when absent, and records the id for the rest of the line. -/
def regMapToken (s : RegLineState) (c : List Char) : Option RegLineState :=
  if c.take 7 = chars "paramId" then
    match pyint (c.drop 8) with
    | some pid =>
      if s.reg_exists ∨ s.registers.any (fun r => r.paramId == some pid) then
        some { s with reg_exists := true, this_reg := some pid }
      else
        some { registers := s.registers ++ [{ paramId := some pid }], reg_exists := true,
               this_reg := some pid }
    | Option.none => Option.none
  else if c.take 7 = chars "address" then
    match pyint (c.drop 8) with
    | some addr => some (applyAddressField s addr)
    | Option.none => Option.none
  else if c.take 12 = chars "registerType" then
    some (applyRegisterType s (pystrip (c.drop 13)))
  else if c.take 8 = chars "encoding" then
    applyEncodingField s (pystrip (c.drop 9))
  else some s

/-- A register-mapping line (lines 466-534), folding the tokens from a fresh
per-line state. -/
def regMapLine (st : SlaveState) (tokens : List (List Char)) : Option SlaveState :=
  (foldOption regMapToken
      { registers := st.registers, reg_exists := false, this_reg := Option.none }
      tokens).map
    (fun s => { st with registers := s.registers })

/-- Comment-marker removal applied to every recognized line, in source order
(lines 340, 361, 379, 446, 468). -/
def stripMarkers (line : List Char) : List Char :=
  pyreplace (chars "*/") (pyreplace (chars "/*") (pyreplace (chars "/**") line))

/-- Line dispatch of Slave._parse_template (lines 338-534), keyed on the
fixed literal prefixes.  The SIM_PORT branch configures the excluded
transport collaborator (spec §1) and touches no modelled state. -/
def parse_line (st : SlaveState) (line : List Char) : Option SlaveState :=
  if line.take 14 = chars "/**DEVICE_DESC" then
    some ((pysplit ';' (stripMarkers line)).foldl descToken st)
  else if line.take 8 = chars "deviceId" then
    foldOption netToken st (pysplit ';' (stripMarkers line))
  else if line.take 11 = chars "/**SIM_PORT" then
    some st
  else if line.take 10 = chars "/*REGISTER" then
    regDescLine st (pysplit ';' (stripMarkers line))
  else if line.take 7 = chars "paramId" then
    regMapLine st (pysplit ';' (stripMarkers line))
  else some st

/-- Fold of the line dispatcher over the template lines. -/
def parse_lines (st : SlaveState) (lines : List (List Char)) : Option SlaveState :=
  foldOption parse_line st lines

/-- Initial Slave state (Slave.__init__, lines 316-324). -/
def initialSlaveState : SlaveState := {}

/-- Per-register normalization pass at the head of the allocation loop
(lines 543-548): min and max default to the encoding's nominal range and the
default value is coerced to the encoding's Python type. -/
def normalizeRegister (r : Register) : Option Register := do
  let rng ← get_range r.encoding
  let r1 := if r.min = PyVal.none then { r with min := rng.1 } else r
  let r2 := if r1.max = PyVal.none then { r1 with max := rng.2 } else r1
  let d ← get_default r2
  some { r2 with default := d }

/-- Slave._parse_template through the normalization pass: parse all lines
from the initial state, then normalize every register (lines 338-548); the
output is the device's accepted register-descriptor list and flags. -/
def parse_template (lines : List (List Char)) : Option SlaveState := do
  let st ← parse_lines initialSlaveState lines
  let regs ← traverseOption normalizeRegister st.registers
  some { st with registers := regs }

/-- The in-memory DEFAULT_TEMPLATE (lines 134-147) after splitlines(). -/
def DEFAULT_TEMPLATE : List (List Char) :=
  [chars "/**DEVICE_DESC;VendorName=PyModbus;ProductCode=PM;VendorUrl=http://github.com/bashwork/pymodbus;ProductName=PyModbus;ModelName=AsyncServer;MajorMinorRevision=1.0.0;sparse",
   chars "/**SIM_PORT;port=tcp:502;mode=tcp",
   chars "deviceId=1;networkId=1;plcBaseAddress=0;byteOrder=msb;wordOrder=msw",
   chars "/*REGISTER;paramId=1;Name=Pressure;Default=100;min=5;max=200",
   chars "paramId=1;deviceId=1;registerType=analog;address=1;encoding=int16",
   chars "/*REGISTER;paramId=2;Name=HighPressure;Default=150",
   chars "paramId=2;deviceId=1;registerType=holding;address=1;encoding=int16",
   chars "/*REGISTER;paramId=3;Name=Indicator;Default=0",
   chars "paramId=3;deviceId=1;registerType=input;address=1;encoding=boolean",
   chars "/*REGISTER;paramId=4;Name=Valve;Default=0",
   chars "paramId=4;deviceId=1;registerType=coil;address=2;encoding=boolean",
   chars "/*REGISTER;paramId=5;Name=Temperature;Default=22.5",
   chars "paramId=5;deviceId=1;registerType=analog;address=30;encoding=float32"]

/-- Addresses collected for one class by the sequential arm of the allocation
loop (lines 549-570): each register of that class with a non-None address
contributes its base address, in list order. -/
def class_sequential (regs : List Register) (rt : List Char) : List Int :=
  regs.filterMap
    (fun r => if r.reg_type = some rt ∧ ¬(r.address = Option.none) then r.address else Option.none)

/-- Python dict key insertion for the sparse blocks (every stored value is 0,
so only the key set matters; insertion order is kept). -/
def dictInsert (keys : List Int) (k : Int) : List Int :=
  if k ∈ keys then keys else keys ++ [k]

/-- One register's contribution to a class's sparse block
(lines 549-568): block[reg.address] = 0 when the register belongs to the
class and has an address. -/
def sparseStep (rt : List Char) (ks : List Int) (r : Register) : List Int :=
  match r.address with
  | some a => if r.reg_type = some rt then dictInsert ks a else ks
  | Option.none => ks

/-- Key set of the sparse block built for one class by the sparse arm of the
allocation loop (lines 549-570): block[reg.address] = 0 for each register of
the class with a non-None address — only the base address, never the further
addresses spanned by a multi-word length. -/
def class_sparse_block (regs : List Register) (rt : List Char) : List Int :=
  regs.foldl (sparseStep rt) []

/-- Ordered insertion for sortInts. -/
def insertSorted (x : Int) : List Int → List Int
  | [] => [x]
  | y :: ys => if x ≤ y then x :: y :: ys else y :: insertSorted x ys

/-- Python list.sort() on the collected addresses (ascending). -/
def sortInts : List Int → List Int
  | [] => []
  | x :: xs => insertSorted x (sortInts xs)

/-- Modelled from the spec: a sequential RegisterStore (§3) is a base address
plus a contiguous word array (pymodbus ModbusSequentialDataBlock). -/
structure SeqBlock where
  address : Int
  values : List Nat
deriving DecidableEq, Repr

/-- Sequential block construction for one class when the sparse flag is off
(lines 577-600): sort the collected addresses and build
ModbusSequentialDataBlock(0, [0 for x in range(first, last)]) — a block based
at address 0 whose size is last minus first; an empty class yields no
block. -/
def class_seq_block (regs : List Register) (rt : List Char) : Option SeqBlock :=
  match sortInts (class_sequential regs rt) with
  | [] => Option.none
  | a :: rest =>
    some { address := 0, values := List.replicate ((rest.getLastD a - a).toNat) 0 }

/-- Modelled from the spec: the contiguous address range a sequential store
covers — an address is covered when it lies in [base, base + word count)
(§3: addresses outside the range fail with an illegal-address condition). -/
def SeqBlock.covers (b : SeqBlock) (a : Int) : Prop :=
  b.address ≤ a ∧ a < b.address + b.values.length

/-- Generic new-value rule of update_values (lines 806-812): holding and
input registers increment, wrapping to min once the old value fails
old < max (max None never wraps); coils and discrete inputs toggle. -/
def generic_new_value (reg : Register) (old : PyVal) : Option PyVal :=
  if reg.reg_type = some (chars "hr") ∨ reg.reg_type = some (chars "ir") then
    if reg.max = PyVal.none then pyAdd1 old
    else
      match pyLt old reg.max with
      | some true => pyAdd1 old
      | some false => some reg.min
      | Option.none => Option.none
  else
    some (PyVal.int (if pyEqBool old (PyVal.int 1) then 0 else 1))

/-- One register's step of the generic branch of update_values
(lines 804-813): read and decode the current value, compute the new value,
and write it back through set_value; Option.none models any exception
escaping the tick. -/
def update_register (ctx : Ctx) (reg : Register) : Option (Ctx × Register) :=
  match get_value ctx reg with
  | Option.none => Option.none
  | some (old, reg1) =>
    match generic_new_value reg1 old with
    | Option.none => Option.none
    | some nv =>
      match set_value ctx reg1 nv with
      | Except.ok p => some p
      | Except.error _ => Option.none

/-- Iterated generic ticks of one register. -/
def iterate_ticks : Nat → Ctx → Register → Option (Ctx × Register)
  | 0, ctx, reg => some (ctx, reg)
  | n + 1, ctx, reg =>
    match update_register ctx reg with
    | some p => iterate_ticks n p.1 p.2
    | Option.none => Option.none

/-- All-zero backing stores, as produced by the allocator before defaults are
written. -/
def zeroCtx : Ctx :=
  { hr := fun _ => 0, ir := fun _ => 0, di := fun _ => 0, co := fun _ => 0 }

/-- The integer-family encoding tags of the codec, each with the bit width
and signedness its builder/decoder calls use (boolean is packed as an 8-bit
unsigned word; the spec gives its representable values as 0 and 1). -/
def intTagTable : List (List Char × Nat × Bool) :=
  [(chars "int8", 8, true), (chars "uint8", 8, false), (chars "boolean", 8, false),
   (chars "int16", 16, true), (chars "uint16", 16, false),
   (chars "int32", 32, true), (chars "uint32", 32, false),
   (chars "int64", 64, true), (chars "uint64", 64, false)]

/-- The numeric (int/uint) encoding tags with their width and signedness. -/
def numericTagTable : List (List Char × Nat × Bool) :=
  [(chars "int8", 8, true), (chars "uint8", 8, false),
   (chars "int16", 16, true), (chars "uint16", 16, false),
   (chars "int32", 32, true), (chars "uint32", 32, false),
   (chars "int64", 64, true), (chars "uint64", 64, false)]

/-- The two descriptors of the allocator-sizing scenario: one word at
address 1 and two words at address 30, both holding registers, in a
sparse=false device. -/
def c1_regs : List Register :=
  [{ reg_type := some (chars "hr"), address := some 1, length := 1 },
   { reg_type := some (chars "hr"), address := some 30, length := 2 }]

/-- A one-word int16 holding register at address 7 for the codec round-trip
witness. -/
def c2_reg : Register :=
  { address := some 7, length := 1, reg_type := some (chars "hr"),
    encoding := some (chars "int16") }

/-- A one-word uint16 holding register at address 7 for the range-error
witness. -/
def c3_reg : Register :=
  { address := some 7, length := 1, reg_type := some (chars "hr"),
    encoding := some (chars "uint16") }

/-- A two-word float32 input register at address 9 for the float range-error
witness. -/
def c3f_reg : Register :=
  { address := some 9, length := 2, reg_type := some (chars "ir"),
    encoding := some (chars "float32") }

/-- The increment-wrap scenario's holding register: int16, min 5, max 200,
default 100, one word at address 1. -/
def c4_reg : Register :=
  { paramId := some 1, address := some 1, length := 1, reg_type := some (chars "hr"),
    encoding := some (chars "int16"), default := PyVal.int 100,
    min := PyVal.int 5, max := PyVal.int 200 }

/-- The scenario's initial state: the default written into zeroed stores, as
the tail of _parse_template does (lines 602-605). -/
def c4_start : Option (Ctx × Register) :=
  match set_value zeroCtx c4_reg (PyVal.int 100) with
  | Except.ok p => some p
  | Except.error _ => Option.none

/-- The register's decoded value after n generic ticks of the scenario. -/
def c4_value_after (n : Nat) : Option PyVal :=
  ((c4_start.bind (fun p => iterate_ticks n p.1 p.2)).bind
    (fun p => get_value p.1 p.2)).map Prod.fst

/-- A register-mapping line whose address is the claimed upper bound 99999. -/
def c5_bad_line : List Char :=
  chars "paramId=9;deviceId=1;registerType=holding;address=99999;encoding=int16"

/-- A register-mapping line at the last accepted address 99998. -/
def c5_boundary_line : List Char :=
  chars "paramId=9;deviceId=1;registerType=holding;address=99998;encoding=int16"

/-- A register-mapping line with the out-of-range address 100000. -/
def c5_overflow_line : List Char :=
  chars "paramId=9;deviceId=1;registerType=holding;address=100000;encoding=int16"

/-- A well-formed register-mapping line following the malformed one. -/
def c5_next_line : List Char :=
  chars "paramId=10;deviceId=1;registerType=holding;address=31;encoding=int16"

/-- A register-mapping line with an unrecognized encoding tag. -/
def c6_line : List Char :=
  chars "paramId=9;deviceId=1;registerType=holding;address=4;encoding=foo"

/-- A single length-2 holding-register descriptor at address 30 for the
sparse-allocator scenario. -/
def c7_regs : List Register :=
  [{ reg_type := some (chars "hr"), address := some 30, length := 2,
     encoding := some (chars "float32") }]

/-- A float32 input register whose template omitted min and max. -/
def c10_reg : Register :=
  { reg_type := some (chars "ir"), encoding := some (chars "float32"),
    address := some 30, length := 2 }

theorem swapBytes_lt (w : Nat) (h : w < 65536) : swapBytes w < 65536 := by
  unfold swapBytes; omega

theorem swapBytes_swapBytes (w : Nat) (h : w < 65536) : swapBytes (swapBytes w) = w := by
  unfold swapBytes; omega

theorem map_swapBytes_involution (ws : List Nat) (h : ∀ w ∈ ws, w < 65536) :
    (ws.map swapBytes).map swapBytes = ws := by
  induction ws with
  | nil => rfl
  | cons w ws ih =>
    simp only [List.map_cons, List.cons.injEq]
    exact ⟨swapBytes_swapBytes w (h w (by simp)),
           ih (fun x hx => h x (List.mem_cons_of_mem _ hx))⟩

theorem applyByteorder_involution (bo : Endian) (ws : List Nat) (h : ∀ w ∈ ws, w < 65536) :
    applyByteorder bo (applyByteorder bo ws) = ws := by
  cases bo with
  | big => rfl
  | little => exact map_swapBytes_involution ws h

theorem applyWordorder_involution (wo : Endian) (ws : List Nat) :
    applyWordorder wo (applyWordorder wo ws) = ws := by
  cases wo with
  | big => rfl
  | little => exact List.reverse_reverse ws

theorem applyByteorder_length (bo : Endian) (ws : List Nat) :
    (applyByteorder bo ws).length = ws.length := by
  cases bo <;> simp [applyByteorder]

theorem applyWordorder_length (wo : Endian) (ws : List Nat) :
    (applyWordorder wo ws).length = ws.length := by
  cases wo <;> simp [applyWordorder]

theorem natToWords_length (n : Nat) : ∀ u, (natToWords n u).length = n := by
  induction n with
  | zero => intro u; rfl
  | succ n ih => intro u; simp [natToWords, ih]

theorem natToWords_lt (n : Nat) : ∀ u, ∀ w ∈ natToWords n u, w < 65536 := by
  induction n with
  | zero => intro u w hw; simp [natToWords] at hw
  | succ n ih =>
    intro u w hw
    simp only [natToWords, List.mem_append, List.mem_singleton] at hw
    rcases hw with hw | hw
    · exact ih _ w hw
    · subst hw; omega

theorem mem_applyByteorder_lt (bo : Endian) (ws : List Nat) (h : ∀ w ∈ ws, w < 65536) :
    ∀ w ∈ applyByteorder bo ws, w < 65536 := by
  cases bo with
  | big => exact h
  | little =>
    intro w hw
    simp only [applyByteorder, List.mem_map] at hw
    obtain ⟨x, hx, rfl⟩ := hw
    exact swapBytes_lt x (h x hx)

theorem wordsToNat_append_singleton (ws : List Nat) (w : Nat) :
    wordsToNat (ws ++ [w]) = wordsToNat ws * 65536 + w := by
  unfold wordsToNat
  rw [List.foldl_append]
  rfl

theorem wordsToNat_natToWords (n : Nat) : ∀ u, u < 65536 ^ n → wordsToNat (natToWords n u) = u := by
  induction n with
  | zero =>
    intro u h
    have hu : u = 0 := by simpa using Nat.lt_one_iff.mp (by simpa using h)
    simp [natToWords, wordsToNat, hu]
  | succ n ih =>
    intro u h
    rw [natToWords, wordsToNat_append_singleton, ih (u / 65536) ?bound]
    · omega
    case bound =>
      rw [Nat.div_lt_iff_lt_mul (by omega)]
      calc u < 65536 ^ (n + 1) := h
        _ = 65536 ^ n * 65536 := by ring

theorem twos_complement_emod (p v : Int) (_hp : 0 < p) (h1 : -p ≤ v) (_h2 : v ≤ p - 1)
    (hneg : ¬ 0 ≤ v) :
    v % (2 * p) = v + 2 * p := by
  have hself : (v + 2 * p * 1) % (2 * p) = v % (2 * p) :=
    Int.add_mul_emod_self_left v (2 * p) 1
  have hred : (v + 2 * p * 1) % (2 * p) = v + 2 * p * 1 :=
    Int.emod_eq_of_lt (by omega) (by omega)
  omega

theorem pow_split (bits : Nat) (hbits : 1 ≤ bits) :
    (2 : Int) ^ bits = 2 * 2 ^ (bits - 1) := by
  have hb : bits - 1 + 1 = bits := by omega
  calc (2 : Int) ^ bits = 2 ^ (bits - 1 + 1) := by rw [hb]
    _ = 2 ^ (bits - 1) * 2 := by rw [pow_succ]
    _ = 2 * 2 ^ (bits - 1) := by ring

theorem decode_encode_int (bits : Nat) (signed : Bool) (bo wo : Endian) (v : Int)
    (ws : List Nat) (hbits : 1 ≤ bits)
    (hw : 2 ^ bits ≤ 65536 ^ wordCountOfBits bits)
    (henc : encode_int bits signed bo wo v = some ws) :
    decode_int bits signed bo wo ws = some v := by
  unfold encode_int at henc
  split at henc
  case isFalse => exact absurd henc (by simp)
  case isTrue hrange =>
    obtain ⟨hlo, hhi⟩ := hrange
    set n := wordCountOfBits bits with hn
    set B : Int := (2 : Int) ^ bits with hB
    set u : Nat := (v % B).toNat with hu
    have hws : ws = applyWordorder wo (applyByteorder bo (natToWords n u)) :=
      ((Option.some.injEq _ _).mp henc).symm
    have hclt : ∀ w ∈ natToWords n u, w < 65536 := natToWords_lt n u
    have hlen : ws.length = n := by
      rw [hws, applyWordorder_length, applyByteorder_length, natToWords_length]
    have hP : (2 : Int) ^ (bits - 1) ≤ B ∧ B = 2 * 2 ^ (bits - 1) := by
      constructor
      · rw [hB, pow_split bits hbits]
        have : (0 : Int) < 2 ^ (bits - 1) := pow_pos (by omega) _
        omega
      · rw [hB]; exact pow_split bits hbits
    have hBpos : (0 : Int) < B := by
      rw [hB]; exact pow_pos (by omega) _
    have humod_nonneg : 0 ≤ v % B := Int.emod_nonneg v (by omega)
    have humod_lt : v % B < B := Int.emod_lt_of_pos v hBpos
    have hucast : ((u : Nat) : Int) = v % B := Int.toNat_of_nonneg humod_nonneg
    have hu_lt : u < 2 ^ bits := by
      have hc : ((u : Nat) : Int) < ((2 ^ bits : Nat) : Int) := by
        rw [hucast]
        have : ((2 ^ bits : Nat) : Int) = B := by rw [hB]; push_cast; ring
        omega
      exact_mod_cast hc
    unfold decode_int
    rw [if_pos (by omega : n ≤ ws.length)]
    rw [List.take_of_length_le (by omega)]
    rw [hws, applyWordorder_involution, applyByteorder_involution bo _ hclt]
    rw [wordsToNat_natToWords n u (by omega)]
    refine congrArg some ?_
    cases signed with
    | false =>
      have hlo0 : (0 : Int) ≤ v := by simpa [encLo] using hlo
      have hhi0 : v ≤ B - 1 := by
        have := hhi; simp only [encHi] at this; omega
      have hvmod : v % B = v := Int.emod_eq_of_lt hlo0 (by omega)
      have hcnot : ¬ ((false = true) ∧ (2 : Int) ^ (bits - 1) ≤ ((u : Nat) : Int)) := by
        rintro ⟨hc, -⟩
        exact Bool.noConfusion hc
      rw [if_neg hcnot]
      omega
    | true =>
      have hlo1 : -((2 : Int) ^ (bits - 1)) ≤ v := by simpa [encLo] using hlo
      have hhi1 : v ≤ (2 : Int) ^ (bits - 1) - 1 := by simpa [encHi] using hhi
      by_cases hv : 0 ≤ v
      · have hvmod : v % B = v := Int.emod_eq_of_lt hv (by omega)
        have hcnot : ¬ ((true = true) ∧ (2 : Int) ^ (bits - 1) ≤ ((u : Nat) : Int)) := by
          rintro ⟨-, hc⟩
          omega
        rw [if_neg hcnot]
        omega
      · have hPpos : (0 : Int) < 2 ^ (bits - 1) := pow_pos (by omega) _
        have hvmod : v % B = v + B := by
          rw [hP.2]
          exact twos_complement_emod ((2 : Int) ^ (bits - 1)) v hPpos (by omega) (by omega) hv
        have hcyes : ((true = true) ∧ (2 : Int) ^ (bits - 1) ≤ ((u : Nat) : Int)) := by
          exact ⟨rfl, by omega⟩
        rw [if_pos hcyes]
        omega

theorem encode_int_in_range (bits : Nat) (signed : Bool) (bo wo : Endian) (v : Int)
    (hlo : encLo bits signed ≤ v) (hhi : v ≤ encHi bits signed) :
    ∃ ws, encode_int bits signed bo wo v = some ws ∧ ws.length = wordCountOfBits bits := by
  refine ⟨_, by rw [encode_int, if_pos ⟨hlo, hhi⟩], ?_⟩
  rw [applyWordorder_length, applyByteorder_length, natToWords_length]

theorem encode_int_out_of_range (bits : Nat) (signed : Bool) (bo wo : Endian) (v : Int)
    (h : v < encLo bits signed ∨ encHi bits signed < v) :
    encode_int bits signed bo wo v = Option.none := by
  rw [encode_int, if_neg]
  rintro ⟨hlo, hhi⟩
  rcases h with h | h <;> omega

theorem writeWordsF_lookup_below (ws : List Nat) :
    ∀ (f : Int → Nat) (a x : Int), x < a → writeWordsF f a ws x = f x := by
  induction ws with
  | nil => intro f a x _; rfl
  | cons w ws ih =>
    intro f a x hx
    rw [writeWordsF, ih (writeWord f a w) (a + 1) x (by omega)]
    unfold writeWord
    rw [if_neg (by omega)]

theorem readWords_writeWordsF (ws : List Nat) :
    ∀ (f : Int → Nat) (a : Int), readWords (writeWordsF f a ws) a ws.length = ws := by
  induction ws with
  | nil => intro f a; rfl
  | cons w ws ih =>
    intro f a
    rw [List.length_cons, readWords, writeWordsF]
    congr 1
    · rw [writeWordsF_lookup_below ws (writeWord f a w) (a + 1) a (by omega)]
      unfold writeWord
      rw [if_pos rfl]
    · exact ih (writeWord f a w) (a + 1)

theorem Ctx_read_writeWords (ctx : Ctx) (cls : RegClass) (a : Int) (ws : List Nat) :
    (ctx.writeWords cls a ws).read cls = writeWordsF (ctx.read cls) a ws := by
  cases cls <;> rfl

theorem intTagTable_encKind :
    ∀ x ∈ intTagTable, encKind (some x.1) = EncKind.intK x.2.1 x.2.2 := by decide

theorem intTagTable_widths :
    ∀ x ∈ intTagTable, 1 ≤ x.2.1 ∧ 2 ^ x.2.1 ≤ 65536 ^ wordCountOfBits x.2.1 := by decide

theorem numericTagTable_sub : ∀ x ∈ numericTagTable, x ∈ intTagTable := by decide

theorem get_function_code_value_irrelevant (reg : Register) (x : PyVal) (b : Bool) :
    get_function_code { reg with value := x } b = get_function_code reg b := rfl

theorem get_function_code_only_reg_type (r1 r2 : Register) (h : r1.reg_type = r2.reg_type)
    (b : Bool) : get_function_code r1 b = get_function_code r2 b := by
  simp only [get_function_code, h]

theorem get_default_fields (r1 r2 : Register) (he : r1.encoding = r2.encoding)
    (hd : r1.default = r2.default) : get_default r1 = get_default r2 := by
  simp only [get_default, he, hd]

theorem reg_type_function_code (reg : Register)
    (hrt : reg.reg_type = some (chars "hr") ∨ reg.reg_type = some (chars "ir") ∨
           reg.reg_type = some (chars "di") ∨ reg.reg_type = some (chars "co")) :
    ∃ fc cls, get_function_code reg true = some fc ∧ fcClass fc = some cls := by
  rcases hrt with h | h | h | h
  · exact ⟨READ_HR, RegClass.hr, by simp only [get_function_code, h]; decide, by decide⟩
  · exact ⟨READ_IR, RegClass.ir, by simp only [get_function_code, h]; decide, by decide⟩
  · exact ⟨READ_DI, RegClass.di, by simp only [get_function_code, h]; decide, by decide⟩
  · exact ⟨READ_CO, RegClass.co, by simp only [get_function_code, h]; decide, by decide⟩

theorem set_get_int_roundtrip (ctx : Ctx) (reg : Register) (bits : Nat)
    (signed : Bool) (a v : Int)
    (hkind : encKind reg.encoding = EncKind.intK bits signed)
    (haddr : reg.address = some a)
    (hlen : reg.length = (wordCountOfBits bits : Int))
    (hrt : reg.reg_type = some (chars "hr") ∨ reg.reg_type = some (chars "ir") ∨
           reg.reg_type = some (chars "di") ∨ reg.reg_type = some (chars "co"))
    (hbits : 1 ≤ bits) (hw : 2 ^ bits ≤ 65536 ^ wordCountOfBits bits)
    (hlo : encLo bits signed ≤ v) (hhi : v ≤ encHi bits signed) :
    ∃ ctx2 reg2, set_value ctx reg (PyVal.int v) = Except.ok (ctx2, reg2) ∧
      (get_value ctx2 reg2).map Prod.fst = some (PyVal.int v) := by
  obtain ⟨ws, hws, hwslen⟩ :=
    encode_int_in_range bits signed reg.byteorder reg.wordorder v hlo hhi
  obtain ⟨fc, cls, hfc, hcls⟩ := reg_type_function_code reg hrt
  have hbuild : build_payload reg (PyVal.int v) = Except.ok ws := by
    rw [build_payload, hkind]
    simp only [asPyInt]
    rw [hws]
  have hset : set_value ctx reg (PyVal.int v) =
      Except.ok (ctx.writeWords cls a ws, { reg with value := PyVal.int v }) := by
    rw [set_value, if_neg (by simp), hbuild, hfc, haddr]
    simp only [Ctx.setValues, hcls, Option.map_some']
  refine ⟨ctx.writeWords cls a ws, { reg with value := PyVal.int v }, hset, ?_⟩
  have hfc2 : get_function_code { reg with value := PyVal.int v } true = some fc := by
    rw [get_function_code_value_irrelevant]; exact hfc
  have haddr2 : ({ reg with value := PyVal.int v } : Register).address = some a := haddr
  have hread : (ctx.writeWords cls a ws).getValues fc a reg.length.toNat = some ws := by
    rw [Ctx.getValues, hcls, Option.map_some', hlen, Int.toNat_natCast]
    rw [Ctx_read_writeWords, ← hwslen, readWords_writeWordsF]
  have hfc3 : get_function_code { reg with address := some a, value := PyVal.int v } true =
      some fc := by
    rw [get_function_code_only_reg_type { reg with address := some a, value := PyVal.int v }
      reg rfl true]
    exact hfc
  have hdec := decode_encode_int bits signed reg.byteorder reg.wordorder v ws hbits hw hws
  simp only [get_value, hfc2, haddr, hfc3, hkind, hread, hdec, Option.map_some']

/-- Round-trip law for the integer-family encodings
(int8/uint8/int16/uint16/int32/uint32/int64/uint64/boolean, with their bit
widths and signedness from intTagTable): for every byte-order/word-order
combination carried by the register and every representable value, set_value
followed by get_value on the same register returns the value unchanged.
Supporting development for the codec; the round-trip claim over the float
encodings is IEEE floating-point conversion in the external library and does
not translate to this embedding. -/
theorem int_family_roundtrip (ctx : Ctx) (reg : Register) (enc : List Char) (bits : Nat)
    (signed : Bool) (a v : Int)
    (htag : (enc, bits, signed) ∈ intTagTable)
    (henc : reg.encoding = some enc)
    (haddr : reg.address = some a)
    (hlen : reg.length = (wordCountOfBits bits : Int))
    (hrt : reg.reg_type = some (chars "hr") ∨ reg.reg_type = some (chars "ir") ∨
           reg.reg_type = some (chars "di") ∨ reg.reg_type = some (chars "co"))
    (hlo : encLo bits signed ≤ v) (hhi : v ≤ encHi bits signed) :
    ∃ ctx2 reg2, set_value ctx reg (PyVal.int v) = Except.ok (ctx2, reg2) ∧
      (get_value ctx2 reg2).map Prod.fst = some (PyVal.int v) := by
  have hkind : encKind reg.encoding = EncKind.intK bits signed := by
    rw [henc]
    exact intTagTable_encKind (enc, bits, signed) htag
  have hwb := intTagTable_widths (enc, bits, signed) htag
  exact set_get_int_roundtrip ctx reg bits signed a v hkind haddr hlen hrt hwb.1 hwb.2 hlo hhi

/-- Instance of the integer round-trip law: an int16 holding register at
address 7 round-trips the value -5. -/
theorem int_family_roundtrip_example :
    ∃ ctx2 reg2, set_value zeroCtx c2_reg (PyVal.int (-5)) = Except.ok (ctx2, reg2) ∧
      (get_value ctx2 reg2).map Prod.fst = some (PyVal.int (-5)) :=
  int_family_roundtrip zeroCtx c2_reg (chars "int16") 16 true 7 (-5) (by decide) rfl rfl
    (by decide) (Or.inl rfl) (by decide) (by decide)

theorem floatTagTable_encKind :
    ∀ x ∈ floatTagTable, encKind (some x.1) = EncKind.floatK x.2 := by decide

/-- Claim C3: for every numeric encoding — the int/uint family and the float
formats — set_value with a value outside the encoding's representable range
fails with the packer's range error before anything is written, rather than
silently truncating the value into the register words.  For the int/uint
tags the range is the two's-complement interval; for the float formats it is
the packer's overflow bound (the magnitude at which rounding overflows the
format, one rounding step above the largest finite float32; for float64 no
finite Python value is out of range). -/
theorem C3_range_error :
    (∀ (ctx : Ctx) (reg : Register) (enc : List Char) (bits : Nat) (signed : Bool) (v : Int),
        (enc, bits, signed) ∈ numericTagTable →
        reg.encoding = some enc →
        (v < encLo bits signed ∨ encHi bits signed < v) →
        set_value ctx reg (PyVal.int v) = Except.error CodecErr.rangeErr)
    ∧ (∀ (ctx : Ctx) (reg : Register) (enc : List Char) (single : Bool) (n : Int) (d : Nat),
        (enc, single) ∈ floatTagTable →
        reg.encoding = some enc →
        0 < d →
        (floatOverflowBound single * (d : Int) ≤ n ∨
          n ≤ -(floatOverflowBound single * (d : Int))) →
        set_value ctx reg (PyVal.float n d) = Except.error CodecErr.rangeErr) := by
  constructor
  · intro ctx reg enc bits signed v htag henc hout
    have hkind : encKind reg.encoding = EncKind.intK bits signed := by
      rw [henc]
      exact intTagTable_encKind (enc, bits, signed) (numericTagTable_sub _ htag)
    have henc0 := encode_int_out_of_range bits signed reg.byteorder reg.wordorder v hout
    have hbuild : build_payload reg (PyVal.int v) = Except.error CodecErr.rangeErr := by
      rw [build_payload, hkind]
      simp only [asPyInt]
      rw [henc0]
    rw [set_value, if_neg (by simp), hbuild]
  · intro ctx reg enc single n d htag henc _hd hout
    have hkind : encKind reg.encoding = EncKind.floatK single := by
      rw [henc]
      exact floatTagTable_encKind (enc, single) htag
    have hbuild : build_payload reg (PyVal.float n d) = Except.error CodecErr.rangeErr := by
      rw [build_payload, hkind]
      simp only [asPyFloat]
      rw [if_pos hout]
    rw [set_value, if_neg (by simp), hbuild]

set_option maxRecDepth 4000 in
/-- Witness for C3: writing 65536 into a uint16 register and 2^128 into a
float32 register both raise the range error. -/
theorem C3_range_error_witness :
    set_value zeroCtx c3_reg (PyVal.int 65536) = Except.error CodecErr.rangeErr ∧
    set_value zeroCtx c3f_reg (PyVal.float (2 ^ 128) 1) = Except.error CodecErr.rangeErr := by
  constructor
  · exact C3_range_error.1 zeroCtx c3_reg (chars "uint16") 16 false 65536 (by decide) rfl
      (Or.inr (by decide))
  · exact C3_range_error.2 zeroCtx c3f_reg (chars "float32") true (2 ^ 128) 1 (by decide) rfl
      (by decide) (Or.inl (by decide))

/-- Claim C9: for every register and every store state, set_value with Python
None leaves the backing store and the cached descriptor value unchanged (only
a warning is logged) and no encode is attempted. -/
theorem C9_none_noop (ctx : Ctx) (reg : Register) :
    set_value ctx reg PyVal.none = Except.ok (ctx, reg) := by
  rw [set_value, if_pos rfl]

/-- Counterexample to claim C4 as stated: the scenario's holding register
(min 5, max 200, default 100) holds 196 after 96 generic ticks, not 200. -/
theorem C4_counterexample :
    c4_value_after 96 = some (PyVal.int 196) ∧
    ¬ c4_value_after 96 = some (PyVal.int 200) := by
  have h : c4_value_after 96 = some (PyVal.int 196) := by decide
  exact ⟨h, by rw [h]; decide⟩

/-- Claim C4 (amended): on each generic tick, a HoldingRegister/InputRegister
value old with a concrete max becomes old + 1 while old < max and wraps to
min otherwise (so when old >= max); in the scenario with min=5, max=200,
default=100 the value reaches 200 after 100 generic ticks (not 96), and the
next tick sets it to 5, not 201. -/
theorem C4_amended :
    (∀ (reg : Register) (old m : Int),
        (reg.reg_type = some (chars "hr") ∨ reg.reg_type = some (chars "ir")) →
        reg.max = PyVal.int m →
        generic_new_value reg (PyVal.int old) =
          some (if old < m then PyVal.int (old + 1) else reg.min))
    ∧ c4_value_after 100 = some (PyVal.int 200)
    ∧ c4_value_after 101 = some (PyVal.int 5) := by
  refine ⟨?_, by decide, by decide⟩
  intro reg old m hrt hmax
  rw [generic_new_value, if_pos hrt, hmax]
  rw [if_neg (by simp)]
  by_cases h : old < m
  · simp [pyLt, h, pyAdd1]
  · simp [pyLt, h, pyAdd1]

/-- Witness for C4 (amended): the scenario register increments at 100 and
wraps from 200 to its min 5. -/
theorem C4_amended_witness :
    generic_new_value c4_reg (PyVal.int 200) = some (PyVal.int 5) ∧
    generic_new_value c4_reg (PyVal.int 100) = some (PyVal.int 101) := by
  constructor
  · have h := C4_amended.1 c4_reg 200 200 (Or.inl rfl) rfl
    rw [h]; decide
  · have h := C4_amended.1 c4_reg 100 200 (Or.inl rfl) rfl
    rw [h]; decide

/-- Counterexample to claim C5 as stated: address 99999 lies in the claimed
accepted interval [0, 99999], yet the line parser drops it — the register
keeps no address. -/
theorem C5_counterexample :
    (parse_lines initialSlaveState [c5_bad_line]).map
      (fun st => st.registers.map Register.address) = some [Option.none] := by
  decide

/-- Claim C5 (amended): a mapping-line address field is accepted exactly when
0 <= address < 99999 (Python range(0, 99999) excludes 99999); an out-of-range
address changes nothing on that line beyond a logged error — the rest of the
line is still processed and the descriptor keeps address None — and parsing
of all subsequent lines continues. -/
theorem C5_amended :
    (∀ (s : RegLineState) (a : Int), ¬(0 ≤ a ∧ a < 99999) → applyAddressField s a = s)
    ∧ (∀ (s : RegLineState) (a : Int), (0 ≤ a ∧ a < 99999) → s.reg_exists = true →
        (applyAddressField s a).registers =
          s.registers.map
            (fun r => if r.paramId = s.this_reg then { r with address := some a } else r))
    ∧ (parse_lines initialSlaveState [c5_boundary_line]).map
        (fun st => st.registers.map Register.address) = some [some 99998]
    ∧ (parse_lines initialSlaveState [c5_overflow_line, c5_next_line]).map
        (fun st => st.registers.map (fun r => (r.paramId, r.address))) =
      some [(some 9, Option.none), (some 10, some 31)] := by
  refine ⟨?_, ?_, by decide, by decide⟩
  · intro s a h
    rw [applyAddressField, if_neg h]
  · intro s a h hex
    rw [applyAddressField, if_pos h, hex]
    simp

/-- Witness for C5 (amended): address 100000 leaves the line state untouched
and address 50 is assigned to the matching register. -/
theorem C5_amended_witness :
    applyAddressField ⟨[], false, Option.none⟩ 100000 = ⟨[], false, Option.none⟩ ∧
    (applyAddressField ⟨[{ paramId := some 9 }], true, some 9⟩ 50).registers =
      [{ paramId := some 9, address := some 50 }] := by
  constructor
  · exact C5_amended.1 ⟨[], false, Option.none⟩ 100000 (by decide)
  · have hst := C5_amended.2.1 ⟨[{ paramId := some 9 }], true, some 9⟩ 50 (by decide) rfl
    rw [hst]
    decide

/-- Counterexample to claim C6 as stated: a mapping line with the
unrecognized encoding tag foo still leaves its descriptor in the parser's
returned register list (with the encoding unset), refuting that the
descriptor does not appear. -/
theorem C6_counterexample :
    (parse_template [c6_line]).map
      (fun st => st.registers.map (fun r => (r.paramId, r.encoding))) =
    some [(some 9, Option.none)] := by
  decide

/-- Claim C6 (amended): an unrecognized encoding tag only logs an error and
leaves the line state unchanged — the descriptor stays in the returned
register list with its encoding unset; it is not removed. -/
theorem C6_amended :
    (∀ (s : RegLineState) (enc : List Char),
        ¬(enc = chars "int16" ∨ enc = chars "int8" ∨ enc = chars "boolean") →
        ¬(enc = chars "float32" ∨ enc = chars "int32") →
        applyEncodingField s enc = some s)
    ∧ (parse_template [c6_line]).map
        (fun st => st.registers.map (fun r => (r.paramId, r.address, r.encoding))) =
      some [(some 9, some 4, Option.none)] := by
  refine ⟨?_, by decide⟩
  intro s enc h1 h2
  rw [applyEncodingField, if_neg h1, if_neg h2]

/-- Witness for C6 (amended): the tag foo leaves an empty line state
unchanged. -/
theorem C6_amended_witness :
    applyEncodingField { registers := [], reg_exists := false, this_reg := Option.none }
      (chars "foo") =
    some { registers := [], reg_exists := false, this_reg := Option.none } :=
  C6_amended.1 { registers := [], reg_exists := false, this_reg := Option.none }
    (chars "foo") (by decide) (by decide)

theorem dictInsert_mem (ks : List Int) (k a : Int) :
    a ∈ dictInsert ks k ↔ a ∈ ks ∨ a = k := by
  by_cases hk : k ∈ ks
  · rw [dictInsert, if_pos hk]
    constructor
    · exact Or.inl
    · rintro (h | rfl)
      · exact h
      · exact hk
  · rw [dictInsert, if_neg hk]
    simp

theorem sparseStep_mem (rt : List Char) (ks : List Int) (r : Register) (a : Int) :
    a ∈ sparseStep rt ks r ↔ a ∈ ks ∨ (r.reg_type = some rt ∧ r.address = some a) := by
  unfold sparseStep
  cases haddr : r.address with
  | none => simp [haddr]
  | some b =>
    by_cases hrt : r.reg_type = some rt
    · simp [hrt, dictInsert_mem, eq_comm]
    · simp [hrt]

theorem foldl_sparseStep_mem (regs : List Register) (rt : List Char) :
    ∀ (ks : List Int) (a : Int),
      a ∈ regs.foldl (sparseStep rt) ks ↔
        a ∈ ks ∨ ∃ r ∈ regs, r.reg_type = some rt ∧ r.address = some a := by
  induction regs with
  | nil => intro ks a; simp
  | cons r regs ih =>
    intro ks a
    rw [List.foldl_cons, ih (sparseStep rt ks r) a, sparseStep_mem]
    constructor
    · rintro ((h | hr) | ⟨r2, hr2, hc⟩)
      · exact Or.inl h
      · exact Or.inr ⟨r, List.mem_cons_self r regs, hr⟩
      · exact Or.inr ⟨r2, List.mem_cons_of_mem r hr2, hc⟩
    · rintro (h | ⟨r2, hr2, hc⟩)
      · exact Or.inl (Or.inl h)
      · rcases List.mem_cons.mp hr2 with rfl | hr2
        · exact Or.inl (Or.inr hc)
        · exact Or.inr ⟨r2, hr2, hc⟩

/-- Counterexample to claim C7 as stated: under the sparse flag, the length-2
descriptor at address 30 contributes only the key 30 to its class's
address-to-zero mapping; the additional covered address 31 is absent. -/
theorem C7_counterexample :
    ¬ ((31 : Int) ∈ class_sparse_block c7_regs (chars "hr")) := by
  decide

/-- Claim C7 (amended): under the sparse flag the allocator builds, for each
register class, an address-to-zero mapping whose keys are exactly the
descriptors' base addresses of that class — a multi-word length contributes
no additional addresses (the length-2 descriptor at 30 yields the key set
{30} only). -/
theorem C7_amended :
    (∀ (regs : List Register) (rt : List Char) (a : Int),
        a ∈ class_sparse_block regs rt ↔
          ∃ r ∈ regs, r.reg_type = some rt ∧ r.address = some a)
    ∧ class_sparse_block c7_regs (chars "hr") = [30] := by
  refine ⟨?_, by decide⟩
  intro regs rt a
  rw [class_sparse_block, foldl_sparseStep_mem]
  simp

set_option maxRecDepth 100000 in
/-- Claim C8: parsing the documented DEFAULT_TEMPLATE yields exactly 5
register descriptors, and the descriptor with paramId 5 has name Temperature,
encoding float32, and length 2. -/
theorem C8_default_template :
    (parse_template DEFAULT_TEMPLATE).map (fun st => st.registers.length) = some 5 ∧
    ((parse_template DEFAULT_TEMPLATE).bind
        (fun st => st.registers.find? (fun r => r.paramId == some 5))).map
      (fun r => (r.name, r.encoding, r.length)) =
    some (some (chars "Temperature"), some (chars "float32"), 2) := by
  constructor <;> decide

/-- Claim C1 evaluated on the code: for the sparse=false class holding
descriptors {address 1, length 1} and {address 30, length 2}, the allocator
builds ModbusSequentialDataBlock(0, 29 zero words) — a store based at
address 0 of size maxAddress - minAddress = 29 — whose covered range [0, 29)
excludes addresses 29 through 31 and in particular the whole second
descriptor, instead of the claimed coverage of [1, 32). -/
theorem C1_allocator_eval :
    class_seq_block c1_regs (chars "hr") =
      some { address := 0, values := List.replicate 29 0 } ∧
    ¬ SeqBlock.covers { address := 0, values := List.replicate 29 0 } 30 ∧
    ¬ SeqBlock.covers { address := 0, values := List.replicate 29 0 } 31 ∧
    ¬ SeqBlock.covers { address := 0, values := List.replicate 29 0 } 29 ∧
    SeqBlock.covers { address := 0, values := List.replicate 29 0 } 0 ∧
    SeqBlock.covers { address := 0, values := List.replicate 29 0 } 1 := by
  refine ⟨by decide, ?_, ?_, ?_, ?_, ?_⟩ <;> simp [SeqBlock.covers]

/-- Claim C10: for a register whose encoding is none of the int/uint/boolean
tags (for example float32 or string) and whose min and max were omitted,
get_range yields (None, None), the normalization pass leaves min and max
None, and the generic tick rule consequently computes old + 1 without ever
wrapping to min. -/
theorem C10_unconstrained (enc : List Char) (reg : Register) (old : PyVal)
    (h1 : ¬ enc.take 4 = chars "uint") (h2 : ¬ enc.take 3 = chars "int")
    (h3 : ¬ enc = chars "boolean")
    (henc : reg.encoding = some enc)
    (hmin : reg.min = PyVal.none) (hmax : reg.max = PyVal.none)
    (hrt : reg.reg_type = some (chars "hr") ∨ reg.reg_type = some (chars "ir")) :
    get_range (some enc) = some (PyVal.none, PyVal.none) ∧
    (∀ d, get_default reg = some d →
        (normalizeRegister reg).map (fun r => (r.min, r.max, r.default)) =
          some (PyVal.none, PyVal.none, d)) ∧
    generic_new_value reg old = pyAdd1 old := by
  have hgr : get_range (some enc) = some (PyVal.none, PyVal.none) := by
    simp only [get_range]
    rw [if_neg h1, if_neg h2, if_neg h3]
  refine ⟨hgr, ?_, ?_⟩
  · intro d hd
    have hgd2 : get_default
        { reg with encoding := some enc, min := PyVal.none, max := PyVal.none } = some d := by
      rw [get_default_fields
        { reg with encoding := some enc, min := PyVal.none, max := PyVal.none } reg
        henc.symm rfl]
      exact hd
    simp only [normalizeRegister, henc, hgr, hmin, hmax, Option.bind_eq_bind,
      Option.some_bind, if_pos, Option.map_some']
    simp [hgd2]
  · rw [generic_new_value, if_pos hrt, if_pos hmax]

/-- Witness for C10: a float32 input register with omitted min/max keeps both
None through normalization and its tick value just increments. -/
theorem C10_unconstrained_witness :
    get_range (some (chars "float32")) = some (PyVal.none, PyVal.none) ∧
    (normalizeRegister c10_reg).map (fun r => (r.min, r.max, r.default)) =
      some (PyVal.none, PyVal.none, PyVal.float 0 1) ∧
    generic_new_value c10_reg (PyVal.float 225 10) = pyAdd1 (PyVal.float 225 10) := by
  have h := C10_unconstrained (chars "float32") c10_reg (PyVal.float 225 10)
    (by decide) (by decide) (by decide) rfl rfl rfl (Or.inr rfl)
  exact ⟨h.1, h.2.1 (PyVal.float 0 1) (by decide), h.2.2⟩

end ModbusSim
